import Mathlib

/-!
Verification of the connection/session core of the Yowsup2-style messaging
client: the `TransportManager` (frame codec, incoming-data buffering,
reconnection backoff) and the `CryptoManager` (per-peer sessions, envelope
encryption/decryption).

The JavaScript source is shallowly embedded: buffers become `List Nat`,
stateful methods become explicit state-passing functions, `throw` becomes
`Except`, and the randomness drawn by the code (`crypto.randomBytes`,
`Math.random`, `Date.now`) becomes explicit parameters.  Node's low-level
crypto primitives (`createCipher`/`createDecipher` with its EVP password
key-derivation, `createHmac`) are modelled symbolically as concrete
injective functions, which preserves exactly the properties the code relies
on: the cipher is deterministic in (password, plaintext) and invertible
given the password, and the MAC is collision-free on distinct inputs.
-/

namespace Yowsup

/-- Node `Buffer` contents: a list of byte values. -/
abbrev Bytes := List Nat

namespace Transport

/-- Big-endian 2-byte encoding, as written by `Buffer.writeUInt16BE`
(callers guarantee the value fits, since `writeUInt16BE` throws a
`RangeError` otherwise). -/
def u16be (n : Nat) : Bytes := [n / 256, n % 256]

/-- Big-endian 4-byte encoding, as written by `Buffer.writeUInt32BE`. -/
def u32be (n : Nat) : Bytes :=
  [n / 16777216, n / 65536 % 256, n / 256 % 256, n % 256]

/-- `buffer.readUInt8(0)`; callers check the buffer is long enough. -/
def readU8 : Bytes → Nat
  | a :: _ => a
  | _ => 0

/-- `buffer.readUInt16BE(0)`; callers check the buffer is long enough. -/
def readU16BE : Bytes → Nat
  | a :: b :: _ => a * 256 + b
  | _ => 0

/-- `buffer.readUInt32BE(0)`; callers check the buffer is long enough. -/
def readU32BE : Bytes → Nat
  | a :: b :: c :: d :: _ => ((a * 256 + b) * 256 + c) * 256 + d
  | _ => 0

/-- A decoded wire message, as built by `TransportManager.decodeMessage`. -/
structure Frame where
  type : Nat
  id : Nat
  timestamp : Nat
  data : Bytes
deriving Repr, DecidableEq

/-- `TransportManager.decodeMessage`: reads the 9-byte header
(`readUInt8(0)`, `readUInt32BE(1)`, `readUInt32BE(5)`) and takes the rest
as payload.  When the buffer is shorter than 9 bytes one of the reads
throws; the surrounding `try/catch` turns that into `null`. -/
def decodeMessage (data : Bytes) : Option Frame :=
  if data.length < 9 then none
  else some { type := readU8 data
            , id := readU32BE (data.drop 1)
            , timestamp := readU32BE (data.drop 5)
            , data := data.drop 9 }

/-- `TransportManager.parseMessage`: returns the decoded message (or
`none`) together with the new value of `this.buffer`.  The buffer is left
untouched when fewer than 3 bytes are available or the frame is
incomplete; otherwise `length + 2` bytes are consumed *before*
`decodeMessage` runs, so a frame that fails to decode still consumes its
bytes. -/
def parseMessage (buffer : Bytes) : Option Frame × Bytes :=
  if buffer.length < 3 then (none, buffer)
  else
    let length := readU16BE buffer
    if buffer.length < length + 2 then (none, buffer)
    else ( decodeMessage ((buffer.drop 2).take length)
         , buffer.drop (length + 2) )

/-- A successful parse consumes at least two bytes of the buffer. -/
theorem parseMessage_consumes {buffer : Bytes} {f : Frame} {rest : Bytes}
    (h : parseMessage buffer = (some f, rest)) :
    rest.length < buffer.length := by
  unfold parseMessage at h
  by_cases h3 : buffer.length < 3
  · simp [h3] at h
  · simp only [h3, if_false] at h
    by_cases hlen : buffer.length < readU16BE buffer + 2
    · simp [hlen] at h
    · simp only [hlen, if_false, Prod.mk.injEq] at h
      have := h.2
      subst this
      simp only [List.length_drop]
      omega

/-- The read-drain loop inside `TransportManager.handleIncomingData`:
`while (this.buffer.length > 0) { const message = this.parseMessage();
if (!message) break; this.handleMessage(message); }`.  Returns the final
buffer and the list of messages handed to `handleMessage`, in order. -/
def drain (buffer : Bytes) : Bytes × List Frame :=
  if buffer.length = 0 then (buffer, [])
  else
    match h : parseMessage buffer with
    | (none, rest) => (rest, [])
    | (some f, rest) =>
      have : rest.length < buffer.length := parseMessage_consumes h
      let r := drain rest
      (r.1, f :: r.2)
termination_by buffer.length

/-- `TransportManager.handleIncomingData`: append the chunk to the
partial-frame buffer, then drain complete messages. -/
def handleIncomingData (buffer chunk : Bytes) : Bytes × List Frame :=
  drain (buffer ++ chunk)

/-- Feed a sequence of socket `data` events through
`handleIncomingData`, threading the buffer and accumulating the decoded
messages. -/
def feedChunks : Bytes × List Frame → List Bytes → Bytes × List Frame
  | st, [] => st
  | (buf, ms), c :: cs =>
    let r := handleIncomingData buf c
    feedChunks (r.1, ms ++ r.2) cs

/-- Errors raised on the `sendMessage` path, in the order the code can
raise them: the explicit connectivity check, then the `RangeError`s of
`writeUInt8`/`writeUInt32BE` while building the 9-byte header, then the
`RangeError` of `writeUInt16BE` when the header+payload length does not
fit the 2-byte prefix.  All are thrown before `socket.write`. -/
inductive SendError where
  | notConnected
  | typeOutOfRange
  | idOutOfRange
  | timestampOutOfRange
  | payloadTooLarge
deriving Repr, DecidableEq

/-- The 9-byte header plus payload built by `TransportManager.sendMessage`
(its `messageBuffer`). -/
def messageBuffer (type id timestamp : Nat) (data : Bytes) : Bytes :=
  [type] ++ u32be id ++ u32be timestamp ++ data

/-- The full wire bytes written by `sendMessage` (length prefix plus
`messageBuffer`). -/
def encodeWire (type id timestamp : Nat) (data : Bytes) : Bytes :=
  u16be (9 + data.length) ++ messageBuffer type id timestamp data

/-- `TransportManager.sendMessage`: returns the bytes passed to
`socket.write`, or the error thrown before any write happened. -/
def sendMessage (isConnected : Bool) (type id timestamp : Nat)
    (data : Bytes) : Except SendError Bytes :=
  if ¬ isConnected then .error .notConnected
  else if 256 ≤ type then .error .typeOutOfRange
  else if 4294967296 ≤ id then .error .idOutOfRange
  else if 4294967296 ≤ timestamp then .error .timestampOutOfRange
  else if 65536 ≤ 9 + data.length then .error .payloadTooLarge
  else .ok (encodeWire type id timestamp data)

/-- The `TransportManager` fields that drive the connection lifecycle:
`isConnected`, the reconnect counter and its constructor-set limits, and
the partial-frame buffer (`this.buffer`). -/
structure TMState where
  isConnected : Bool
  reconnectAttempts : Nat
  maxReconnectAttempts : Nat
  reconnectDelay : Nat
  buffer : Bytes
deriving Repr, DecidableEq

/-- Constructor state, with `isConnected` set as after a successful
`connect()` (which also resets `reconnectAttempts` to 0). -/
def connectedTMState : TMState :=
  { isConnected := true
  , reconnectAttempts := 0
  , maxReconnectAttempts := 5
  , reconnectDelay := 1000
  , buffer := [] }

/-- What `TransportManager.attemptReconnect` does besides logging: either
it schedules a reconnection after a computed delay, or it emits the
`transport:max_reconnect_attempts` event and returns without scheduling. -/
inductive ReconnectAction where
  | scheduled (delayMs : Nat)
  | maxReconnectExceeded
deriving Repr, DecidableEq

/-- `TransportManager.attemptReconnect`: refuse once
`reconnectAttempts >= maxReconnectAttempts`; otherwise increment the
counter and schedule after `reconnectDelay * 2 ^ (attempts - 1)` ms. -/
def attemptReconnect (s : TMState) : TMState × ReconnectAction :=
  if s.maxReconnectAttempts ≤ s.reconnectAttempts then
    (s, .maxReconnectExceeded)
  else
    let attempts := s.reconnectAttempts + 1
    ({ s with reconnectAttempts := attempts },
      .scheduled (s.reconnectDelay * 2 ^ (attempts - 1)))

/-- `TransportManager.handleConnectionError` (and `handleConnectionClose`):
mark disconnected, then attempt reconnection. -/
def handleConnectionError (s : TMState) : TMState × ReconnectAction :=
  attemptReconnect { s with isConnected := false }

/-- The trace of reconnect actions produced by `n` consecutive connection
failures. -/
def failuresTrace : TMState → Nat → List ReconnectAction
  | _, 0 => []
  | s, n + 1 =>
    let r := handleConnectionError s
    r.2 :: failuresTrace r.1 n

/-- A socket `data` event as seen by the whole `TransportManager` state:
`handleIncomingData` only touches the partial-frame buffer and emits the
decoded messages; it never changes the connection or reconnection
fields (decode failures are swallowed by `try/catch` and `return null`). -/
def onData (s : TMState) (chunk : Bytes) : TMState × List Frame :=
  let r := handleIncomingData s.buffer chunk
  ({ s with buffer := r.1 }, r.2)

end Transport

namespace Crypto

/-- A value that carries Buffer bytes at runtime: either a real Node
`Buffer`, or the plain data object that `JSON.parse` produces from a
serialized Buffer (`Buffer.prototype.toJSON` output).  Node's crypto
functions accept the former as a password and throw a `TypeError` on the
latter. -/
inductive BufLike where
  | buf (data : Bytes)
  | bufObj (data : Bytes)
deriving Repr, DecidableEq

/-- The underlying bytes; `JSON.stringify` serializes both shapes to the
same text, so serialization only sees this. -/
def BufLike.bytes : BufLike → Bytes
  | .buf b => b
  | .bufObj b => b

/-- Model of `crypto.createCipher('aes-256-cbc', password)` followed by
`update`/`final`: the key and IV are derived from the password alone
(EVP_BytesToKey), so the transform is deterministic in
(password, plaintext); it is modelled as a concrete injective pairing so
that decryption with the right password inverts it. -/
def evpEncrypt (password plaintext : Bytes) : Bytes :=
  password.length :: (password ++ plaintext)

/-- Model of `crypto.createDecipher('aes-256-cbc', password)` followed by
`update`/`final`: inverts `evpEncrypt` under the same password, and fails
(bad decrypt) otherwise. -/
def evpDecrypt (password ciphertext : Bytes) : Option Bytes :=
  match ciphertext with
  | [] => none
  | n :: rest =>
    if n = password.length ∧ rest.take n = password then some (rest.drop n)
    else none

/-- Model of `crypto.createHmac('sha256', key).update(msg).digest('hex')`:
deterministic and injective in (key, message) — the idealisation of
HMAC-SHA256 collision resistance that the integrity check relies on. -/
def hmacSHA256 (key msg : Bytes) : Bytes :=
  key.length :: (key ++ msg)

/-- A per-peer session as built by `CryptoManager.createSession`. -/
structure Session where
  sessionId : Bytes
  recipientId : Bytes
  rootKey : Bytes
  chainKey : Bytes
  messageCount : Nat
  timestamp : Nat
deriving Repr, DecidableEq

/-- `CryptoManager.createSession`: fresh random key material (passed in
explicitly), `messageCount` starts at 0. -/
def createSession (recipientId sessionId rootKey chainKey : Bytes)
    (timestamp : Nat) : Session :=
  { sessionId := sessionId
  , recipientId := recipientId
  , rootKey := rootKey
  , chainKey := chainKey
  , messageCount := 0
  , timestamp := timestamp }

/-- `this.sessionStore`: a `Map` from recipient id to session, modelled as
an association list (`Map.set` of a fresh key appends). -/
abbrev SessionStore := List (Bytes × Session)

/-- `CryptoManager.getSession`: `this.sessionStore.get(recipientId)`. -/
def getSession (store : SessionStore) (recipientId : Bytes) : Option Session :=
  (store.find? (fun e => e.1 == recipientId)).map Prod.snd

/-- `CryptoManager.getOrCreateSession`: return the cached session, or
create one from the fresh random material and cache it. -/
def getOrCreateSession (store : SessionStore) (recipientId : Bytes)
    (sessionId rootKey chainKey : Bytes) (timestamp : Nat) :
    SessionStore × Session :=
  match getSession store recipientId with
  | some session => (store, session)
  | none =>
    let session := createSession recipientId sessionId rootKey chainKey timestamp
    (store ++ [(recipientId, session)], session)

/-- The `{iv, ciphertext}` object built by `CryptoManager.encryptContent`
(fields are base64 strings in the source; modelled as their byte
contents). -/
structure EncryptedContent where
  iv : Bytes
  ciphertext : Bytes
deriving Repr, DecidableEq

/-- `CryptoManager.encryptContent`: a fresh random `iv` is generated but
never fed to the cipher (`createCipher` derives its own IV from the
password); the serialized content is encrypted under `messageKey`.  The
serialized form of the content (`JSON.stringify(content)`) is the `Bytes`
input. -/
def encryptContent (content messageKey iv : Bytes) : EncryptedContent :=
  { iv := iv, ciphertext := evpEncrypt messageKey content }

/-- Errors thrown on the decrypt path, as distinguished by their source. -/
inductive CryptoError where
  /-- `decryptMessage`: `Error('No session found with sender')`. -/
  | noSession
  /-- `decryptEnvelope`: `Error('Invalid message signature')` — the
  spec's `IntegrityError`. -/
  | integrityError
  /-- `createDecipher` throws a `TypeError` when the password is neither
  a string nor a Buffer/TypedArray, e.g. a JSON-parsed Buffer object. -/
  | invalidPasswordType
  /-- `decipher.final` fails on data not produced under the same
  password. -/
  | badDecrypt
  /-- `JSON.parse` fails on the decrypted text. -/
  | parseFailure
deriving Repr, DecidableEq

/-- `CryptoManager.decryptContent`: `createDecipher` with the
JSON-recovered `messageKey`.  A real `Buffer` password decrypts; the
plain object that `JSON.parse` yields for a Buffer makes `createDecipher`
throw. -/
def decryptContent (encryptedContent : EncryptedContent)
    (messageKey : BufLike) : Except CryptoError Bytes :=
  match messageKey with
  | .bufObj _ => .error .invalidPasswordType
  | .buf key =>
    match evpDecrypt key encryptedContent.ciphertext with
    | some content => .ok content
    | none => .error .badDecrypt

/-- The envelope object built inside `CryptoManager.encryptMessage` and
serialized by `encryptEnvelope`. -/
structure Envelope where
  type : Bytes
  recipientId : Bytes
  messageId : Nat
  timestamp : Nat
  encryptedContent : EncryptedContent
  messageKey : BufLike
  sessionId : Bytes
deriving Repr, DecidableEq

/-- A length-prefixed field of the serialized envelope. -/
def encodeField (b : Bytes) : Bytes := b.length :: b

/-- Model of `JSON.stringify(envelope)`: an injective flat encoding of
the envelope record.  `messageKey` is serialized through
`Buffer.prototype.toJSON`, which forgets whether the runtime value was a
`Buffer` or an already-parsed plain object — both serialize identically. -/
def serializeEnvelope (e : Envelope) : Bytes :=
  encodeField e.type ++ encodeField e.recipientId
    ++ [e.messageId, e.timestamp]
    ++ encodeField e.encryptedContent.iv
    ++ encodeField e.encryptedContent.ciphertext
    ++ encodeField e.messageKey.bytes
    ++ encodeField e.sessionId

/-- Read one length-prefixed field. -/
def readField (b : Bytes) : Option (Bytes × Bytes) :=
  match b with
  | [] => none
  | n :: rest =>
    if n ≤ rest.length then some (rest.take n, rest.drop n) else none

/-- Model of `JSON.parse` on a serialized envelope: recovers the record,
with `messageKey` as the plain parsed object (`.bufObj`), never as a
`Buffer`. -/
def parseEnvelope (b : Bytes) : Option Envelope := do
  let (ty, b) ← readField b
  let (rid, b) ← readField b
  match b with
  | messageId :: timestamp :: b =>
    let (iv, b) ← readField b
    let (ct, b) ← readField b
    let (mk, b) ← readField b
    let (sid, b) ← readField b
    if b = [] then
      some { type := ty
           , recipientId := rid
           , messageId := messageId
           , timestamp := timestamp
           , encryptedContent := { iv := iv, ciphertext := ct }
           , messageKey := .bufObj mk
           , sessionId := sid }
    else none
  | _ => none

/-- The `{iv, ciphertext, signature}` object returned by
`CryptoManager.encryptEnvelope` (the spec's Envelope `{iv, ciphertext,
mac}`). -/
structure EncryptedEnvelope where
  iv : Bytes
  ciphertext : Bytes
  signature : Bytes
deriving Repr, DecidableEq

/-- `CryptoManager.encryptEnvelope`: serialize the envelope, encrypt it
under `session.chainKey`, MAC the ciphertext under the same `chainKey`;
the random `iv` is returned but unused by the cipher. -/
def encryptEnvelope (envelope : Envelope) (session : Session)
    (iv : Bytes) : EncryptedEnvelope :=
  let envelopeData := serializeEnvelope envelope
  let encrypted := evpEncrypt session.chainKey envelopeData
  { iv := iv
  , ciphertext := encrypted
  , signature := hmacSHA256 session.chainKey encrypted }

/-- `CryptoManager.decryptEnvelope`: recompute the HMAC over the
ciphertext and reject on mismatch *before* any decryption; on match,
decrypt and `JSON.parse`.  The envelope's `iv` is never read. -/
def decryptEnvelope (encryptedEnvelope : EncryptedEnvelope)
    (session : Session) : Except CryptoError Envelope :=
  if hmacSHA256 session.chainKey encryptedEnvelope.ciphertext
      ≠ encryptedEnvelope.signature then
    .error .integrityError
  else
    match evpDecrypt session.chainKey encryptedEnvelope.ciphertext with
    | none => .error .badDecrypt
    | some envelopeData =>
      match parseEnvelope envelopeData with
      | some envelope => .ok envelope
      | none => .error .parseFailure

/-- The values `encryptMessage` draws from `crypto.randomBytes`,
`Math.random` and `Date.now`, made explicit. -/
structure EncryptRandomness where
  messageKey : Bytes
  messageId : Nat
  timestamp : Nat
  contentIv : Bytes
  envelopeIv : Bytes
  freshSessionId : Bytes
  freshRootKey : Bytes
  freshChainKey : Bytes
  freshSessionTimestamp : Nat
deriving Repr, DecidableEq

/-- `CryptoManager.encryptMessage`: get or create the session, encrypt
the content under a fresh random `messageKey`, build the envelope (which
embeds the `messageKey` Buffer), and encrypt the envelope under the
session.  Returns the updated session store and the encrypted
envelope. -/
def encryptMessage (store : SessionStore) (recipientId message : Bytes)
    (messageType : Bytes) (r : EncryptRandomness) :
    SessionStore × EncryptedEnvelope :=
  let sr := getOrCreateSession store recipientId r.freshSessionId
    r.freshRootKey r.freshChainKey r.freshSessionTimestamp
  let encryptedContent := encryptContent message r.messageKey r.contentIv
  let envelope : Envelope :=
    { type := messageType
    , recipientId := recipientId
    , messageId := r.messageId
    , timestamp := r.timestamp
    , encryptedContent := encryptedContent
    , messageKey := .buf r.messageKey
    , sessionId := sr.2.sessionId }
  (sr.1, encryptEnvelope envelope sr.2 r.envelopeIv)

/-- The record returned by `CryptoManager.decryptMessage`. -/
structure DecryptedMessage where
  senderId : Bytes
  messageId : Nat
  timestamp : Nat
  type : Bytes
  content : Bytes
deriving Repr, DecidableEq

/-- `CryptoManager.decryptMessage`: look up the session (no
auto-creation), decrypt the envelope, then decrypt the content with the
envelope's JSON-recovered `messageKey`. -/
def decryptMessage (store : SessionStore) (senderId : Bytes)
    (encryptedEnvelope : EncryptedEnvelope) :
    Except CryptoError DecryptedMessage :=
  match getSession store senderId with
  | none => .error .noSession
  | some session => do
    let envelope ← decryptEnvelope encryptedEnvelope session
    let content ← decryptContent envelope.encryptedContent envelope.messageKey
    pure { senderId := senderId
         , messageId := envelope.messageId
         , timestamp := envelope.timestamp
         , type := envelope.type
         , content := content }

/-- Iterated encryption to one peer, threading the session store. -/
def encryptIter (store : SessionStore) (recipientId message messageType : Bytes)
    (rs : List EncryptRandomness) : SessionStore :=
  rs.foldl
    (fun st r => (encryptMessage st recipientId message messageType r).1)
    store

/-- Flip bit `k` of the byte at index `i` — an attacker's single-bit
tampering of a wire field. -/
def flipBit (b : Bytes) (i k : Nat) : Bytes :=
  b.set i ((b.getD i 0) ^^^ 2 ^ k)

end Crypto

namespace Transport

theorem readU16BE_u16be (n : Nat) (rest : Bytes) (h : n < 65536) :
    readU16BE (u16be n ++ rest) = n := by
  simp only [u16be, List.cons_append, List.nil_append, readU16BE]
  omega

theorem readU32BE_u32be (n : Nat) (rest : Bytes) (h : n < 4294967296) :
    readU32BE (u32be n ++ rest) = n := by
  simp only [u32be, List.cons_append, List.nil_append, readU32BE]
  omega

theorem messageBuffer_length (type id timestamp : Nat) (data : Bytes) :
    (messageBuffer type id timestamp data).length = 9 + data.length := by
  simp [messageBuffer, u32be]
  omega

theorem encodeWire_length (type id timestamp : Nat) (data : Bytes) :
    (encodeWire type id timestamp data).length = 11 + data.length := by
  simp [encodeWire, u16be, messageBuffer_length]
  omega

/-- Decoding the 9-byte-header message extracted from an encoded frame
recovers the original fields. -/
theorem decodeMessage_messageBuffer (type id timestamp : Nat) (data : Bytes)
    (ht : type < 256) (hi : id < 4294967296) (hts : timestamp < 4294967296) :
    decodeMessage (messageBuffer type id timestamp data) =
      some ⟨type, id, timestamp, data⟩ := by
  have hlen := messageBuffer_length type id timestamp data
  unfold decodeMessage
  rw [if_neg (by omega)]
  simp only [messageBuffer, u32be, List.cons_append, List.nil_append, readU8,
    List.drop_succ_cons, List.drop_zero]
  rw [show ((id / 16777216 :: (id / 65536 % 256 :: (id / 256 % 256 ::
        (id % 256 :: (timestamp / 16777216 :: (timestamp / 65536 % 256 ::
        (timestamp / 256 % 256 :: (timestamp % 256 :: data)))))))) : Bytes)
      = u32be id ++ (u32be timestamp ++ data) by simp [u32be]]
  rw [readU32BE_u32be id _ hi]
  rw [show ((timestamp / 16777216 :: (timestamp / 65536 % 256 ::
        (timestamp / 256 % 256 :: (timestamp % 256 :: data)))) : Bytes)
      = u32be timestamp ++ data by simp [u32be]]
  rw [readU32BE_u32be timestamp _ hts]

/-- A full encoded frame parses in one step, consuming the whole buffer. -/
theorem parseMessage_encodeWire (type id timestamp : Nat) (data : Bytes)
    (ht : type < 256) (hi : id < 4294967296) (hts : timestamp < 4294967296)
    (hd : data.length ≤ 65526) :
    parseMessage (encodeWire type id timestamp data) =
      (some ⟨type, id, timestamp, data⟩, []) := by
  have hEl := encodeWire_length type id timestamp data
  have hmb := messageBuffer_length type id timestamp data
  unfold parseMessage
  rw [if_neg (by omega)]
  have hr16 : readU16BE (encodeWire type id timestamp data) = 9 + data.length := by
    unfold encodeWire
    exact readU16BE_u16be _ _ (by omega)
  rw [hr16, if_neg (by omega)]
  have hdrop2 : (encodeWire type id timestamp data).drop 2
      = messageBuffer type id timestamp data := by
    simp [encodeWire, u16be]
  have hdropAll : (encodeWire type id timestamp data).drop (9 + data.length + 2)
      = [] := by
    apply List.drop_eq_nil_of_le
    omega
  rw [hdrop2, hdropAll]
  rw [List.take_of_length_le (by omega)]
  rw [decodeMessage_messageBuffer type id timestamp data ht hi hts]

theorem drain_nil : drain [] = ([], []) := by
  unfold drain
  simp

theorem drain_eq_of_parse_none {b rest : Bytes} (hb : b.length ≠ 0)
    (h : parseMessage b = (none, rest)) : drain b = (rest, []) := by
  conv_lhs => unfold drain
  rw [if_neg hb]
  split
  · next heq => rw [h] at heq; exact (Prod.mk.injEq _ _ _ _ ▸ heq).2 ▸ rfl
  · next f r heq => rw [h] at heq; simp at heq

theorem drain_eq_of_parse_some {b rest : Bytes} {f : Frame} (hb : b.length ≠ 0)
    (h : parseMessage b = (some f, rest)) :
    drain b = ((drain rest).1, f :: (drain rest).2) := by
  conv_lhs => unfold drain
  rw [if_neg hb]
  split
  · next heq => rw [h] at heq; simp at heq
  · next f' r heq =>
    rw [h] at heq
    have h1 : some f = some f' := (Prod.mk.injEq _ _ _ _ ▸ heq).1
    have h2 : rest = r := (Prod.mk.injEq _ _ _ _ ▸ heq).2
    simp only [Option.some.injEq] at h1
    subst h1 h2
    rfl

/-- A strict prefix of an encoded frame never parses: either fewer than
3 bytes are buffered, or the declared length exceeds what is buffered.
The buffer is left untouched. -/
theorem parseMessage_prefix_stall (type id timestamp : Nat) (data : Bytes)
    (hd : data.length ≤ 65526) (p s : Bytes)
    (hps : p ++ s = encodeWire type id timestamp data) (hs : s ≠ []) :
    parseMessage p = (none, p) := by
  unfold parseMessage
  by_cases h3 : p.length < 3
  · rw [if_pos h3]
  · rw [if_neg h3]
    have hEl := encodeWire_length type id timestamp data
    have hslen : s.length ≠ 0 := fun hc => hs (List.length_eq_zero.mp hc)
    have hplen : p.length < 11 + data.length := by
      have := congrArg List.length hps
      simp only [List.length_append] at this
      omega
    rcases p with _ | ⟨a, _ | ⟨b, rest⟩⟩
    · simp at h3
    · simp at h3
    · have hab : a = (9 + data.length) / 256 ∧ b = (9 + data.length) % 256 := by
        have h2 := hps
        simp only [encodeWire, u16be, List.cons_append, List.nil_append,
          List.cons.injEq] at h2
        exact ⟨h2.1, h2.2.1⟩
      have hr16 : readU16BE (a :: b :: rest) = 9 + data.length := by
        simp only [readU16BE]
        omega
      rw [hr16, if_pos (by simp only [List.length_cons] at hplen ⊢; omega)]

/-- Draining a strict prefix of an encoded frame emits nothing and keeps
the partial frame buffered. -/
theorem drain_prefix_stall (type id timestamp : Nat) (data : Bytes)
    (hd : data.length ≤ 65526) (p s : Bytes)
    (hps : p ++ s = encodeWire type id timestamp data) (hs : s ≠ []) :
    drain p = (p, []) := by
  by_cases hp : p.length = 0
  · rw [List.length_eq_zero.mp hp]
    exact drain_nil
  · exact drain_eq_of_parse_none hp
      (parseMessage_prefix_stall type id timestamp data hd p s hps hs)

/-- Draining a complete encoded frame emits exactly that frame and
empties the buffer. -/
theorem drain_encodeWire (type id timestamp : Nat) (data : Bytes)
    (ht : type < 256) (hi : id < 4294967296) (hts : timestamp < 4294967296)
    (hd : data.length ≤ 65526) :
    drain (encodeWire type id timestamp data)
      = ([], [⟨type, id, timestamp, data⟩]) := by
  have hEl := encodeWire_length type id timestamp data
  rw [drain_eq_of_parse_some (by omega)
    (parseMessage_encodeWire type id timestamp data ht hi hts hd)]
  rw [drain_nil]

/-- Feeding chunks that all flatten to the empty byte string leaves an
empty buffer and the accumulated messages unchanged. -/
theorem feedChunks_nil_chunks (ms : List Frame) :
    ∀ cs : List Bytes, cs.flatten = [] → feedChunks ([], ms) cs = ([], ms) := by
  intro cs
  induction cs with
  | nil => intro _; rfl
  | cons c cs ih =>
    intro hj
    simp only [List.flatten_cons, List.append_eq_nil] at hj
    obtain ⟨hc, hcs⟩ := hj
    subst hc
    show feedChunks ((drain ([] ++ [])).1, ms ++ (drain ([] ++ [])).2) cs = ([], ms)
    simp only [List.append_nil, drain_nil, List.append_nil]
    exact ih hcs

/-- Invariant for chunked feeding of a single encoded frame: starting from
a buffered strict prefix, processing the remaining chunks yields exactly
the one frame and an empty buffer. -/
theorem feedChunks_encodeWire_aux (type id timestamp : Nat) (data : Bytes)
    (ht : type < 256) (hi : id < 4294967296) (hts : timestamp < 4294967296)
    (hd : data.length ≤ 65526) :
    ∀ (cs : List Bytes) (p : Bytes) (ms : List Frame),
      p ++ cs.flatten = encodeWire type id timestamp data →
      p ≠ encodeWire type id timestamp data →
      feedChunks (p, ms) cs = ([], ms ++ [⟨type, id, timestamp, data⟩]) := by
  intro cs
  induction cs with
  | nil =>
    intro p ms hj hp
    simp only [List.flatten_nil, List.append_nil] at hj
    exact absurd hj hp
  | cons c cs ih =>
    intro p ms hj hp
    simp only [List.flatten_cons, ← List.append_assoc] at hj
    show feedChunks ((drain (p ++ c)).1, ms ++ (drain (p ++ c)).2) cs = _
    by_cases hfull : p ++ c = encodeWire type id timestamp data
    · have hcs : cs.flatten = [] := by
        rw [hfull] at hj
        have hlen := congrArg List.length hj
        simp only [List.length_append] at hlen
        exact List.length_eq_zero.mp (by omega)
      rw [hfull, drain_encodeWire type id timestamp data ht hi hts hd]
      exact feedChunks_nil_chunks _ cs hcs
    · have hstall : drain (p ++ c) = (p ++ c, []) := by
        refine drain_prefix_stall type id timestamp data hd (p ++ c) cs.flatten hj ?_
        intro hnil
        rw [hnil, List.append_nil] at hj
        exact hfull hj
      rw [hstall]
      simp only [List.append_nil]
      exact ih (p ++ c) ms hj hfull

end Transport

namespace Crypto

theorem evpDecrypt_evpEncrypt (password plaintext : Bytes) :
    evpDecrypt password (evpEncrypt password plaintext) = some plaintext := by
  simp [evpEncrypt, evpDecrypt, List.take_left, List.drop_left]

/-- The MAC model is injective in the message for a fixed key. -/
theorem hmacSHA256_inj {key m1 m2 : Bytes}
    (h : hmacSHA256 key m1 = hmacSHA256 key m2) : m1 = m2 := by
  simp only [hmacSHA256, List.cons.injEq] at h
  exact List.append_cancel_left h.2

theorem flipBit_ne (b : Bytes) (i k : Nat) (h : i < b.length) :
    flipBit b i k ≠ b := by
  intro heq
  have h1 : (flipBit b i k).getD i 0 = b.getD i 0 :=
    congrArg (fun l => List.getD l i 0) heq
  have h2 : (flipBit b i k).getD i 0 = (b.getD i 0) ^^^ 2 ^ k := by
    simp [flipBit, List.getD_eq_getElem?_getD, List.getElem?_set_self h]
  rw [h2] at h1
  have hzero : (0 : Nat) = 2 ^ k := by
    have hx := congrArg (fun t => (b.getD i 0) ^^^ t) h1
    simpa [← Nat.xor_assoc] using hx
  exact absurd hzero.symm (Nat.ne_of_gt (Nat.two_pow_pos k))

theorem readField_encodeField (b rest : Bytes) :
    readField (encodeField b ++ rest) = some (b, rest) := by
  simp [encodeField, readField, List.take_left, List.drop_left]

theorem readField_encodeField_nil (b : Bytes) :
    readField (encodeField b) = some (b, []) := by
  simpa using readField_encodeField b []

/-- `JSON.parse` inverts `JSON.stringify` on an envelope, except that the
`messageKey` Buffer comes back as the plain parsed object. -/
theorem parseEnvelope_serializeEnvelope (e : Envelope) :
    parseEnvelope (serializeEnvelope e)
      = some { e with messageKey := .bufObj e.messageKey.bytes } := by
  simp [serializeEnvelope, parseEnvelope, readField_encodeField,
    readField_encodeField_nil]

/-- `getOrCreateSession` caches what it returns. -/
theorem getSession_getOrCreateSession (store : SessionStore)
    (recipientId sessionId rootKey chainKey : Bytes) (timestamp : Nat) :
    getSession
        (getOrCreateSession store recipientId sessionId rootKey chainKey
          timestamp).1 recipientId
      = some (getOrCreateSession store recipientId sessionId rootKey chainKey
          timestamp).2 := by
  unfold getOrCreateSession
  match hs : getSession store recipientId with
  | some session => simpa [hs] using hs
  | none =>
    simp only [hs]
    have hfind : store.find? (fun e => e.1 == recipientId) = none := by
      unfold getSession at hs
      exact Option.map_eq_none'.mp hs
    simp [getSession, List.find?_append, hfind]

/-- When the session already exists, `encryptMessage` leaves the store
unchanged. -/
theorem encryptMessage_store_of_cached (store : SessionStore)
    (recipientId message messageType : Bytes) (r : EncryptRandomness)
    (s : Session) (h : getSession store recipientId = some s) :
    (encryptMessage store recipientId message messageType r).1 = store := by
  simp [encryptMessage, getOrCreateSession, h]

/-- Decrypting an envelope produced under the same session succeeds, and
the recovered envelope carries the `messageKey` as a parsed plain object
rather than a Buffer. -/
theorem decryptEnvelope_encryptEnvelope (envelope : Envelope)
    (session : Session) (iv : Bytes) :
    decryptEnvelope (encryptEnvelope envelope session iv) session
      = .ok { envelope with messageKey := .bufObj envelope.messageKey.bytes } := by
  simp [encryptEnvelope, decryptEnvelope, evpDecrypt_evpEncrypt,
    parseEnvelope_serializeEnvelope]

end Crypto

section Claims

open Transport Crypto

/-- Claim C1 (refuted; the code has the bug): the spec promises
`decrypt(peerId, encrypt(peerId, plaintext)) == plaintext` on the same
cached session, but `decryptMessage` *always* throws: the envelope embeds
`messageKey` as a Buffer, `JSON.stringify`/`JSON.parse` across the
envelope cipher turns it into a plain object, and `createDecipher`
rejects that object as a password.  For every store, peer, plaintext and
random draw, decrypting the freshly encrypted envelope with the same
session fails instead of returning the plaintext. -/
theorem decryptMessage_encryptMessage_always_fails (store : SessionStore)
    (peerId message messageType : Bytes) (r : EncryptRandomness) :
    decryptMessage (encryptMessage store peerId message messageType r).1
        peerId (encryptMessage store peerId message messageType r).2
      = .error .invalidPasswordType := by
  have hsess := getSession_getOrCreateSession store peerId r.freshSessionId
    r.freshRootKey r.freshChainKey r.freshSessionTimestamp
  simp only [encryptMessage]
  simp only [decryptMessage, hsess]
  simp [decryptEnvelope_encryptEnvelope, decryptContent, BufLike.bytes,
    Bind.bind, Except.bind]

/-- Claim C2: flipping any single bit of the `ciphertext` or of the
`mac` (`signature`) of an envelope produced by `encryptEnvelope` makes
`decryptEnvelope` fail with the integrity error (the MAC mismatch is
detected before any decryption is attempted, so no wrong plaintext can
be returned). -/
theorem tampered_envelope_rejected (envelope : Envelope) (session : Session)
    (iv : Bytes) (i k : Nat) :
    (i < (encryptEnvelope envelope session iv).ciphertext.length →
      decryptEnvelope
        { encryptEnvelope envelope session iv with
            ciphertext :=
              flipBit (encryptEnvelope envelope session iv).ciphertext i k }
        session = .error .integrityError) ∧
    (i < (encryptEnvelope envelope session iv).signature.length →
      decryptEnvelope
        { encryptEnvelope envelope session iv with
            signature :=
              flipBit (encryptEnvelope envelope session iv).signature i k }
        session = .error .integrityError) := by
  constructor
  · intro h
    have hne : hmacSHA256 session.chainKey
        (flipBit (encryptEnvelope envelope session iv).ciphertext i k)
        ≠ (encryptEnvelope envelope session iv).signature := by
      intro hh
      have hsig : (encryptEnvelope envelope session iv).signature
          = hmacSHA256 session.chainKey
              (encryptEnvelope envelope session iv).ciphertext := rfl
      exact flipBit_ne _ i k h (hmacSHA256_inj (hh.trans hsig))
    simp [decryptEnvelope, hne]
  · intro h
    have hne : hmacSHA256 session.chainKey
        (encryptEnvelope envelope session iv).ciphertext
        ≠ flipBit (encryptEnvelope envelope session iv).signature i k := by
      have hsig : (encryptEnvelope envelope session iv).signature
          = hmacSHA256 session.chainKey
              (encryptEnvelope envelope session iv).ciphertext := rfl
      rw [← hsig]
      exact (flipBit_ne _ i k h).symm
    simp [decryptEnvelope, hne]

/-- Witness for C2 at a concrete envelope, session and bit position. -/
theorem tampered_envelope_rejected_witness :
    (0 < (encryptEnvelope
        { type := [1], recipientId := [2], messageId := 3, timestamp := 4
        , encryptedContent := { iv := [], ciphertext := [5] }
        , messageKey := .buf [6], sessionId := [7] }
        { sessionId := [7], recipientId := [2], rootKey := [8]
        , chainKey := [9], messageCount := 0, timestamp := 0 }
        []).ciphertext.length) ∧
    decryptEnvelope
      { encryptEnvelope
          { type := [1], recipientId := [2], messageId := 3, timestamp := 4
          , encryptedContent := { iv := [], ciphertext := [5] }
          , messageKey := .buf [6], sessionId := [7] }
          { sessionId := [7], recipientId := [2], rootKey := [8]
          , chainKey := [9], messageCount := 0, timestamp := 0 }
          [] with
          ciphertext :=
            flipBit (encryptEnvelope
              { type := [1], recipientId := [2], messageId := 3, timestamp := 4
              , encryptedContent := { iv := [], ciphertext := [5] }
              , messageKey := .buf [6], sessionId := [7] }
              { sessionId := [7], recipientId := [2], rootKey := [8]
              , chainKey := [9], messageCount := 0, timestamp := 0 }
              []).ciphertext 0 0 }
      { sessionId := [7], recipientId := [2], rootKey := [8]
      , chainKey := [9], messageCount := 0, timestamp := 0 }
      = .error .integrityError :=
  ⟨by decide,
    (tampered_envelope_rejected
      { type := [1], recipientId := [2], messageId := 3, timestamp := 4
      , encryptedContent := { iv := [], ciphertext := [5] }
      , messageKey := .buf [6], sessionId := [7] }
      { sessionId := [7], recipientId := [2], rootKey := [8]
      , chainKey := [9], messageCount := 0, timestamp := 0 }
      [] 0 0).1 (by decide)⟩

/-- Claim C3: for every frame with in-range fields and payload of at most
65526 bytes, decoding the encoded wire bytes yields the original frame
(and consumes exactly the encoded bytes). -/
theorem frame_roundtrip (type id timestamp : Nat) (data : Bytes)
    (ht : type < 256) (hi : id < 4294967296) (hts : timestamp < 4294967296)
    (hd : data.length ≤ 65526) :
    parseMessage (encodeWire type id timestamp data)
      = (some ⟨type, id, timestamp, data⟩, []) :=
  parseMessage_encodeWire type id timestamp data ht hi hts hd

/-- Witness for C3 at a concrete frame. -/
theorem frame_roundtrip_witness :
    (1 : Nat) < 256 ∧ (2 : Nat) < 4294967296 ∧ (3 : Nat) < 4294967296 ∧
    ([4, 5] : Bytes).length ≤ 65526 ∧
    parseMessage (encodeWire 1 2 3 [4, 5]) = (some ⟨1, 2, 3, [4, 5]⟩, []) :=
  ⟨by decide, by decide, by decide, by decide,
    frame_roundtrip 1 2 3 [4, 5] (by decide) (by decide) (by decide) (by decide)⟩

/-- Claim C4: feeding the encoding of a valid frame to the incoming-data
handler split across any sequence of reads yields exactly one decoded
frame — the original — and an empty buffer, identical to feeding it
whole (the single-chunk split is the `cs = [encodeWire ...]` instance);
strict prefixes stay buffered untouched (`drain_prefix_stall`). -/
theorem chunked_feed_single_frame (type id timestamp : Nat) (data : Bytes)
    (ht : type < 256) (hi : id < 4294967296) (hts : timestamp < 4294967296)
    (hd : data.length ≤ 65526) (cs : List Bytes)
    (hcs : cs.flatten = encodeWire type id timestamp data) :
    feedChunks ([], []) cs = ([], [⟨type, id, timestamp, data⟩]) := by
  have hne : ([] : Bytes) ≠ encodeWire type id timestamp data := by
    intro hc
    have := congrArg List.length hc
    rw [encodeWire_length] at this
    simp at this
    omega
  have := feedChunks_encodeWire_aux type id timestamp data ht hi hts hd cs
    [] [] (by simpa using hcs) hne
  simpa using this

/-- Witness for C4: the concrete frame of C3 split into three reads. -/
theorem chunked_feed_single_frame_witness :
    ([[0, 11, 1], [0, 0, 0, 2], [0, 0, 0, 3, 4, 5]] : List Bytes).flatten
        = encodeWire 1 2 3 [4, 5] ∧
    feedChunks ([], []) [[0, 11, 1], [0, 0, 0, 2], [0, 0, 0, 3, 4, 5]]
      = ([], [⟨1, 2, 3, [4, 5]⟩]) :=
  ⟨by decide,
    chunked_feed_single_frame 1 2 3 [4, 5] (by decide) (by decide) (by decide)
      (by decide) [[0, 11, 1], [0, 0, 0, 2], [0, 0, 0, 3, 4, 5]] (by decide)⟩

/-- Claim C5: from a freshly connected state (attempt counter 0,
`maxReconnectAttempts = 5`, `reconnectDelay = 1000`), five consecutive
connection failures schedule delays of 1000, 2000, 4000, 8000 and
16000 ms, and a sixth failure emits the max-reconnect error without
scheduling anything. -/
theorem backoff_schedule :
    failuresTrace connectedTMState 6
      = [.scheduled 1000, .scheduled 2000, .scheduled 4000, .scheduled 8000,
         .scheduled 16000, .maxReconnectExceeded] := by
  decide

/-- Claim C6, as stated, is false: `encryptMessage` never touches the
session's `messageCount`.  Concretely, one encrypt call on an established
session leaves the counter at 0, not 1. -/
theorem messageCount_after_encrypt_cx :
    ((getSession
        (encryptMessage [([1], createSession [1] [2] [3] [4] 5)] [1] [6] [7]
          { messageKey := [8], messageId := 9, timestamp := 10
          , contentIv := [], envelopeIv := []
          , freshSessionId := [], freshRootKey := [], freshChainKey := []
          , freshSessionTimestamp := 0 }).1
        [1]).map Session.messageCount ≠ some 1) ∧
    ((getSession
        (encryptMessage [([1], createSession [1] [2] [3] [4] 5)] [1] [6] [7]
          { messageKey := [8], messageId := 9, timestamp := 10
          , contentIv := [], envelopeIv := []
          , freshSessionId := [], freshRootKey := [], freshChainKey := []
          , freshSessionTimestamp := 0 }).1
        [1]).map Session.messageCount = some 0) := by
  constructor <;> decide

/-- Claim C6 amended: `encryptMessage` never modifies a cached session at
all, so after any number of encrypt calls the stored session — and in
particular its `messageCount`, which `createSession` set to 0 — is
exactly what it was when created. -/
theorem messageCount_constant (store : SessionStore)
    (recipientId message messageType : Bytes) (rs : List EncryptRandomness)
    (s : Session) (h : getSession store recipientId = some s) :
    getSession (encryptIter store recipientId message messageType rs)
        recipientId = some s := by
  induction rs generalizing store with
  | nil => simpa [encryptIter] using h
  | cons r rs ih =>
    have hstep : (encryptMessage store recipientId message messageType r).1
        = store :=
      encryptMessage_store_of_cached store recipientId message messageType r s h
    show getSession
        (encryptIter (encryptMessage store recipientId message messageType r).1
          recipientId message messageType rs) recipientId = some s
    rw [hstep]
    exact ih store h

/-- Witness for the amended C6: two encrypt calls leave the stored
session (created with `messageCount = 0`) unchanged. -/
theorem messageCount_constant_witness :
    getSession [([1], createSession [1] [2] [3] [4] 5)] [1]
        = some (createSession [1] [2] [3] [4] 5) ∧
    getSession
        (encryptIter [([1], createSession [1] [2] [3] [4] 5)] [1] [6] [7]
          [ { messageKey := [8], messageId := 9, timestamp := 10
            , contentIv := [], envelopeIv := []
            , freshSessionId := [], freshRootKey := [], freshChainKey := []
            , freshSessionTimestamp := 0 }
          , { messageKey := [11], messageId := 12, timestamp := 13
            , contentIv := [], envelopeIv := []
            , freshSessionId := [], freshRootKey := [], freshChainKey := []
            , freshSessionTimestamp := 0 } ]) [1]
      = some (createSession [1] [2] [3] [4] 5) :=
  ⟨by decide, messageCount_constant _ _ _ _ _ _ (by decide)⟩

/-- Claim C7, as stated, is false: on a frame with length prefix 0 the
code does not drop the connection or enter the reconnection path — the
transport stays connected with no reconnect attempt; the two prefix
bytes are silently consumed (skipped) and parsing of this read stops. -/
theorem malformed_frame_keeps_connection_cx :
    (onData connectedTMState [0, 0, 0]).1.isConnected = true ∧
    (onData connectedTMState [0, 0, 0]).1.reconnectAttempts = 0 ∧
    (onData connectedTMState [0, 0, 0]).2 = [] ∧
    (onData connectedTMState [0, 0, 0]).1.buffer = [0] := by
  have hd : drain [0, 0, 0] = ([0], []) :=
    drain_eq_of_parse_none (by decide) (by decide)
  refine ⟨rfl, rfl, ?_, ?_⟩ <;>
    simp [onData, handleIncomingData, connectedTMState, hd]

/-- Claim C7 amended: the incoming-data handler never changes the
connection or reconnection state — malformed frames included.  A frame
with length prefix 0 consumes exactly its two prefix bytes, emits no
message, stops parsing for that read, and leaves the rest buffered. -/
theorem malformed_frame_no_reconnect (s : TMState) (chunk : Bytes) :
    ((onData s chunk).1.isConnected = s.isConnected ∧
     (onData s chunk).1.reconnectAttempts = s.reconnectAttempts) ∧
    (s.buffer = [] → ∀ c cs, chunk = 0 :: 0 :: c :: cs →
      (onData s chunk).2 = [] ∧ (onData s chunk).1.buffer = c :: cs) := by
  refine ⟨⟨rfl, rfl⟩, fun hbuf c cs hchunk => ?_⟩
  subst hchunk
  have hp : parseMessage (0 :: 0 :: c :: cs) = (none, c :: cs) := by
    unfold parseMessage
    rw [if_neg (by simp)]
    simp only [readU16BE]
    rw [if_neg (by simp)]
    simp [decodeMessage]
  have hdrain : drain (s.buffer ++ (0 :: 0 :: c :: cs)) = (c :: cs, []) := by
    rw [hbuf]
    simp only [List.nil_append]
    exact drain_eq_of_parse_none (by simp) hp
  constructor <;> simp [onData, handleIncomingData, hdrain]

/-- Witness for the amended C7 at a concrete state and chunk. -/
theorem malformed_frame_no_reconnect_witness :
    connectedTMState.buffer = [] ∧
    ([0, 0, 7] : Bytes) = 0 :: 0 :: 7 :: [] ∧
    ((onData connectedTMState [0, 0, 7]).2 = [] ∧
     (onData connectedTMState [0, 0, 7]).1.buffer = 7 :: []) :=
  ⟨rfl, rfl,
    (malformed_frame_no_reconnect connectedTMState [0, 0, 7]).2 rfl 7 [] rfl⟩

/-- Claim C8: a connected send whose payload would make header+payload
exceed 65535 bytes is rejected with the payload-too-large range error at
the length-prefix write — before `socket.write` runs, so nothing is
written, nothing is truncated, and the connection state is untouched. -/
theorem oversize_payload_rejected (type id timestamp : Nat) (data : Bytes)
    (ht : type < 256) (hi : id < 4294967296) (hts : timestamp < 4294967296)
    (hd : 65526 < data.length) :
    sendMessage true type id timestamp data = .error .payloadTooLarge := by
  unfold sendMessage
  rw [if_neg (by simp), if_neg (by omega), if_neg (by omega),
    if_neg (by omega), if_pos (by omega)]

/-- Witness for C8 with a 65527-byte payload. -/
theorem oversize_payload_rejected_witness :
    (1 : Nat) < 256 ∧ (2 : Nat) < 4294967296 ∧ (3 : Nat) < 4294967296 ∧
    65526 < (List.replicate 65527 0 : Bytes).length ∧
    sendMessage true 1 2 3 (List.replicate 65527 0)
      = .error .payloadTooLarge :=
  ⟨by decide, by decide, by decide,
    by rw [List.length_replicate]; omega,
    oversize_payload_rejected 1 2 3 (List.replicate 65527 0)
      (by decide) (by decide) (by decide) (by rw [List.length_replicate]; omega)⟩

/-- Claim C9: decryption ignores the envelope's `iv` field entirely —
replacing it changes nothing in the outcome of `decryptEnvelope`,
`decryptContent`, or the whole `decryptMessage` (the MAC covers only the
ciphertext and `createDecipher` derives its own IV from the password). -/
theorem decrypt_ignores_iv (store : SessionStore) (senderId iv1 : Bytes)
    (ee : EncryptedEnvelope) (session : Session) (ec : EncryptedContent)
    (iv2 : Bytes) (mk : BufLike) :
    decryptEnvelope { ee with iv := iv1 } session = decryptEnvelope ee session ∧
    decryptContent { ec with iv := iv2 } mk = decryptContent ec mk ∧
    decryptMessage store senderId { ee with iv := iv1 }
      = decryptMessage store senderId ee :=
  ⟨rfl, rfl, rfl⟩

/-- Claim C10: envelope encryption is deterministic in its `ciphertext`
and `signature` — only the unused random `iv` field varies with the
random draw, because the cipher and MAC are keyed solely by the session's
`chainKey` (and `encryptContent` likewise ignores its random iv). -/
theorem encryptEnvelope_deterministic (envelope : Envelope)
    (session : Session) (iv1 iv2 content messageKey : Bytes) :
    (encryptEnvelope envelope session iv1).ciphertext
        = (encryptEnvelope envelope session iv2).ciphertext ∧
    (encryptEnvelope envelope session iv1).signature
        = (encryptEnvelope envelope session iv2).signature ∧
    (encryptEnvelope envelope session iv1).iv = iv1 ∧
    (encryptContent content messageKey iv1).ciphertext
        = (encryptContent content messageKey iv2).ciphertext :=
  ⟨rfl, rfl, rfl, rfl⟩

end Claims

end Yowsup
